import Mathlib

/-!
Verification development for the project write interceptor
(`pkg/api/customization/project/project_store.go`).

The interceptor wraps an underlying object store: on create it computes a
creator-role-bindings annotation and validates the resource-quota pair, on
update it validates the quota pair, and on delete it blocks removal of
system projects.  Collaborators that live outside the embedded file
(quantity parsing, `resourcequota.IsQuotaFit`, `convert.ToObj`, JSON
marshalling) are modelled from the specification, as documented on each
definition.
-/

namespace ProjectStore

/-- The reserved annotation key `authz.management.cattle.io/creator-role-bindings`. -/
def roleTemplatesRequired : String := "authz.management.cattle.io/creator-role-bindings"

/-- The payload field holding the project quota. -/
def quotaField : String := "resourceQuota"

/-- The payload field holding the namespace default quota. -/
def namespaceQuotaField : String := "namespaceDefaultResourceQuota"

/-- The label marking a protected system project. -/
def systemProjectLabel : String := "authz.management.cattle.io/system-project"

/-- First-match lookup in an association list keyed by strings; models a Go
map access `m[k]` returning presence. -/
def assocGet {β : Type} : List (String × β) → String → Option β
  | [], _ => none
  | (k2, v) :: rest, k => if k2 = k then some v else assocGet rest k

/-- A resource quota limit: an open-ended mapping from resource name to a
quantity string (spec section 3, `ResourceQuotaLimit`). -/
abbrev ResourceQuotaLimit := List (String × String)

/-- Splits a character list into its leading decimal digits and the rest. -/
def takeDigits : List Char → List Char × List Char
  | [] => ([], [])
  | c :: cs =>
    if c.isDigit then
      let r := takeDigits cs
      (c :: r.1, r.2)
    else ([], c :: cs)

/-- Decimal value of a digit list. -/
def digitsVal (ds : List Char) : Nat :=
  ds.foldl (fun n c => n * 10 + (c.toNat - Char.toNat '0')) 0

/-- Modelled from the spec: the unit-suffix table of the Quantity parser
(spec section 4.1).  Multipliers are expressed in milli-units so that the
milli suffix "m" stays integral. -/
def suffixMultiplier : String → Option Nat
  | "" => some 1000
  | "m" => some 1
  | "k" => some 1000000
  | "M" => some 1000000000
  | "G" => some 1000000000000
  | "T" => some 1000000000000000
  | "P" => some 1000000000000000000
  | "E" => some 1000000000000000000000
  | "Ki" => some (1024 * 1000)
  | "Mi" => some (1024 * 1024 * 1000)
  | "Gi" => some (1024 * 1024 * 1024 * 1000)
  | "Ti" => some (1024 * 1024 * 1024 * 1024 * 1000)
  | "Pi" => some (1024 * 1024 * 1024 * 1024 * 1024 * 1000)
  | "Ei" => some (1024 * 1024 * 1024 * 1024 * 1024 * 1024 * 1000)
  | _ => none

/-- Modelled from the spec: the Quantity parser (spec section 4.1,
`parse(quantityString) -> NumericMagnitude | ParseError`).  A quantity is
decimal digits followed by a recognized unit suffix; the normalized
magnitude is returned in milli-units. -/
def parseQuantity (s : String) : Except String Nat :=
  match takeDigits s.toList with
  | ([], _) => Except.error ("unable to parse quantity " ++ s)
  | (ds, rest) =>
    match suffixMultiplier (String.mk rest) with
    | none => Except.error ("unable to parse quantity " ++ s)
    | some mult => Except.ok (digitsVal ds * mult)

/-- Go's `strings.Join(xs, ",")`, used for the human-readable violation
message. -/
def joinComma : List String → String
  | [] => ""
  | [x] => x
  | x :: xs => x ++ "," ++ joinComma xs

/-- Modelled from the spec: one tier of the Limit-Set Fit Checker (spec
section 4.2).  For each resource name in `child` that is also bounded in
`parent`, both quantities are parsed (parse errors propagate) and the
resource is a violation when the child magnitude exceeds the parent
magnitude; names absent from `parent` are unbounded and always fit. -/
def fitViolations : ResourceQuotaLimit → ResourceQuotaLimit → Except String (List String)
  | [], _ => Except.ok []
  | (name, q) :: rest, parent =>
    match assocGet parent name with
    | none => fitViolations rest parent
    | some p =>
      match parseQuantity q with
      | Except.error e => Except.error e
      | Except.ok cv =>
        match parseQuantity p with
        | Except.error e => Except.error e
        | Except.ok pv =>
          match fitViolations rest parent with
          | Except.error e => Except.error e
          | Except.ok vs => Except.ok (if cv ≤ pv then vs else name :: vs)

/-- Violations of `child` against every tier in `tiers`, in order. -/
def fitViolationsAll (child : ResourceQuotaLimit) : List ResourceQuotaLimit → Except String (List String)
  | [] => Except.ok []
  | t :: ts =>
    match fitViolations child t with
    | Except.error e => Except.error e
    | Except.ok vs1 =>
      match fitViolationsAll child ts with
      | Except.error e => Except.error e
      | Except.ok vs2 => Except.ok (vs1 ++ vs2)

/-- Modelled from the spec: `resourcequota.IsQuotaFit` (spec section 4.2),
the repository function called by `validateResourceQuota` but not part of
the embedded file.  It checks the child limit set against the intermediate
tiers and the parent, returning whether everything fits and the joined
list of violating resource names. -/
def isQuotaFit (child : ResourceQuotaLimit) (intermediates : List ResourceQuotaLimit)
    (parent : ResourceQuotaLimit) : Except String (Bool × String) :=
  match fitViolationsAll child (intermediates ++ [parent]) with
  | Except.error e => Except.error e
  | Except.ok vs => Except.ok (vs.isEmpty, joinComma vs)

/-- A role template: a name plus the two booleans the interceptor reads
(`ProjectCreatorDefault` and `Locked`). -/
structure RoleTemplate where
  name : String
  projectCreatorDefault : Bool
  locked : Bool
deriving DecidableEq

/-- JSON string quoting; role-template names and map keys here contain no
characters needing escapes. -/
def quoteJSON (s : String) : String := "\"" ++ s ++ "\""

/-- Modelled from the spec / Go stdlib: `encoding/json` marshalling of a
`[]string` value. -/
def marshalStringList (xs : List String) : String :=
  "[" ++ joinComma (xs.map quoteJSON) ++ "]"

/-- Modelled from the spec / Go stdlib: `encoding/json` marshalling of a
`map[string][]string`.  A non-nil empty map marshals to the empty JSON
object.  (Go sorts map keys; the only map built here has at most the
single key "required", so insertion order is key order.) -/
def marshalStrListMap (m : List (String × List String)) : String :=
  "\x7b" ++ joinComma (m.map (fun kv => quoteJSON kv.1 ++ ":" ++ marshalStringList kv.2)) ++ "\x7d"

/-- Go map append `m[k] = append(m[k], v)` on a `map[string][]string`. -/
def mapAppend : List (String × List String) → String → String → List (String × List String)
  | [], k, v => [(k, [v])]
  | (k2, vs) :: rest, k, v =>
    if k2 = k then (k2, vs ++ [v]) :: rest else (k2, vs) :: mapAppend rest k v

/-- The loop body of `createProjectAnnotation`: append the role's name
under "required" when it is `ProjectCreatorDefault` and not `Locked`. -/
def annoStep (m : List (String × List String)) (role : RoleTemplate) : List (String × List String) :=
  if role.projectCreatorDefault && !role.locked then mapAppend m "required" role.name else m

/-- The `annoMap` built by `createProjectAnnotation`: every listed role
template that is `ProjectCreatorDefault` and not `Locked` is appended, in
listing order, under the key "required". -/
def buildAnnoMap (rts : List RoleTemplate) : List (String × List String) :=
  rts.foldl annoStep []

/-- `createProjectAnnotation`: from the role-template lister's result
(propagating its error), build the required-role map and marshal it. -/
def createProjectAnnotation (rts : Except String (List RoleTemplate)) : Except String String :=
  match rts with
  | Except.error e => Except.error e
  | Except.ok list => Except.ok (marshalStrListMap (buildAnnoMap list))

/-- A payload value, as the interceptor distinguishes them: Go `nil`, a
well-shaped quota object (whose `limit` field may itself be nil), a map of
strings (the annotations map), or a value whose structural conversion to a
quota object fails with the given message. -/
inductive PVal where
  | null : PVal
  | quota : Option ResourceQuotaLimit → PVal
  | strMap : List (String × String) → PVal
  | malformed : String → PVal
deriving DecidableEq

/-- The untyped request payload `map[string]interface{}`. -/
abbrev Payload := List (String × PVal)

/-- Error codes of the structured API errors raised by the interceptor. -/
inductive ErrCode where
  | missingRequired : ErrCode
  | maxLimitExceeded : ErrCode
  | methodNotAllowed : ErrCode
deriving DecidableEq

/-- An error returned by a store operation: a structured API error
(`httperror.NewFieldAPIError` / `NewAPIError`, with code, optional field
and message) or an external collaborator's error propagated unchanged. -/
inductive PError where
  | api : ErrCode → Option String → String → PError
  | ext : String → PError
deriving DecidableEq

/-- The value of a payload field; a missing key reads as Go `nil`. -/
def fieldVal (data : Payload) (k : String) : PVal :=
  (assocGet data k).getD PVal.null

/-- The `quotaOk` / `namespaceQuotaOk` bit of `validateResourceQuota`: the
field counts as present exactly when its value is present and non-nil. -/
def fieldPresent (data : Payload) (k : String) : Bool :=
  match fieldVal data k with
  | PVal.null => false
  | _ => true

/-- Modelled from the spec: `convert.ToObj` into a quota object (spec
section 4.3 step 4, structural conversion).  Go `nil` converts to the zero
value (no limit); a quota-shaped value yields its limit; anything else
fails with a conversion error. -/
def convQuota : PVal → Except String (Option ResourceQuotaLimit)
  | PVal.null => Except.ok none
  | PVal.quota l => Except.ok l
  | PVal.strMap _ => Except.error "conversion error"
  | PVal.malformed e => Except.error e

/-- `limitToLimit`: `convert.ToObj` between the two equally-shaped limit
types; a nil source converts to the zero (empty) limit set. -/
def limitToLimit (q : Option ResourceQuotaLimit) : Except String ResourceQuotaLimit :=
  Except.ok (q.getD [])

/-- `validateResourceQuota`: read the two quota fields (a present-but-nil
value counts as absent); if exactly one is present fail with a
MissingRequired error naming the absent field; otherwise convert both,
run the fit check of the namespace default limit against the project
limit, propagate checker errors unchanged, and on not-fit fail with a
MaxLimitExceeded error on the namespace quota field listing the violating
resources. -/
def validateResourceQuota (data : Payload) (id : String) : Option PError :=
  if fieldPresent data quotaField ≠ fieldPresent data namespaceQuotaField then
    if fieldPresent data quotaField then
      some (PError.api ErrCode.missingRequired (some namespaceQuotaField) "")
    else
      some (PError.api ErrCode.missingRequired (some quotaField) "")
  else
    match convQuota (fieldVal data namespaceQuotaField) with
    | Except.error e => some (PError.ext e)
    | Except.ok nsQuota =>
      match convQuota (fieldVal data quotaField) with
      | Except.error e => some (PError.ext e)
      | Except.ok projectQuota =>
        match limitToLimit projectQuota with
        | Except.error e => some (PError.ext e)
        | Except.ok projectQuotaLimit =>
          match limitToLimit nsQuota with
          | Except.error e => some (PError.ext e)
          | Except.ok nsQuotaLimit =>
            match isQuotaFit nsQuotaLimit [] projectQuotaLimit with
            | Except.error e => some (PError.ext e)
            | Except.ok fitRes =>
              if fitRes.1 then none
              else
                some (PError.api ErrCode.maxLimitExceeded (some namespaceQuotaField)
                  ("exceeds " ++ quotaField ++ " on fields: " ++ fitRes.2))

/-- Set-or-replace in an association list; one level of `values.PutValue`. -/
def mapSet {β : Type} : List (String × β) → String → β → List (String × β)
  | [], k, v => [(k, v)]
  | (k2, v2) :: rest, k, v =>
    if k2 = k then (k2, v) :: rest else (k2, v2) :: mapSet rest k v

/-- `values.PutValue(data, v, "annotations", roleTemplatesRequired)`:
store `v` under the reserved key inside the payload's annotations map,
creating the map when absent or not map-shaped. -/
def putValue (data : Payload) (v : String) : Payload :=
  let annos :=
    match fieldVal data "annotations" with
    | PVal.strMap m => m
    | _ => []
  mapSet data "annotations" (PVal.strMap (mapSet annos roleTemplatesRequired v))

/-- Outcome of an intercepted create or update: an error before reaching
the underlying store, or delegation to the underlying store with the
given id and payload. -/
inductive Outcome where
  | err : PError → Outcome
  | delegated : String → Payload → Outcome
deriving DecidableEq

/-- `Create`: compute the annotation (propagating the lister's error),
validate the quota pair with an empty id, and only on success inject the
annotation and delegate to the underlying store's create. -/
def Create (rtList : Except String (List RoleTemplate)) (data : Payload) : Outcome :=
  match createProjectAnnotation rtList with
  | Except.error e => Outcome.err (PError.ext e)
  | Except.ok anno =>
    match validateResourceQuota data "" with
    | some e => Outcome.err e
    | none => Outcome.delegated "" ( putValue data anno)

/-- `Update`: validate the quota pair with the existing id, then delegate
to the underlying store's update. -/
def Update (data : Payload) (id : String) : Outcome :=
  match validateResourceQuota data id with
  | some e => Outcome.err e
  | none => Outcome.delegated id data

/-- A project as the delete path reads it: its label map. -/
structure Project where
  labels : List (String × String)
deriving DecidableEq

/-- Outcome of an intercepted delete. -/
inductive DeleteOutcome where
  | err : PError → DeleteOutcome
  | delegated : String → DeleteOutcome
deriving DecidableEq

/-- Go's `strings.Split` for a single-character separator: the list of
(possibly empty) chunks between separators; splitting the empty string
yields one empty chunk. -/
def goSplit (sep : Char) : List Char → List (List Char)
  | [] => [[]]
  | c :: cs =>
    let r := goSplit sep cs
    if c = sep then [] :: r else (c :: r.headD []) :: r.tail

/-- `strings.Split(id, ":")` as used by `Delete`. -/
def deleteParts (id : String) : List String :=
  (goSplit ':' id.toList).map (fun l => String.mk l)

/-- `Delete`: split the id on ":", resolve the project by first segment
(cluster) and last segment (project), propagate lookup errors, reject a
system project with a MethodNotAllowed error, otherwise delegate. -/
def Delete (projGet : String → String → Except String Project) (id : String) : DeleteOutcome :=
  let parts := deleteParts id
  match projGet (parts.headD "") (parts.getLastD "") with
  | Except.error e => DeleteOutcome.err (PError.ext e)
  | Except.ok proj =>
    if (assocGet proj.labels systemProjectLabel).getD "" = "true" then
      DeleteOutcome.err (PError.api ErrCode.methodNotAllowed none "System Project cannot be deleted")
    else DeleteOutcome.delegated id

/-- The names of the role templates that are project-creator-default and
not locked, in listing order. -/
def requiredNames (rts : List RoleTemplate) : List String :=
  (rts.filter (fun r => r.projectCreatorDefault && !r.locked)).map (fun r => r.name)

/-- The spec's annotation format (spec section 6): a JSON object with
exactly one key "required" whose value is a list of role-template name
strings.  Used to compare the computed annotation against the spec. -/
def requiredObjectString (names : List String) : String :=
  "\x7b" ++ (quoteJSON "required" ++ ":" ++ marshalStringList names) ++ "\x7d"

/-! ### Helper lemmas -/

theorem goSplit_of_not_mem (sep : Char) (l : List Char) (h : sep ∉ l) : goSplit sep l = [l] := by
  induction l with
  | nil => rfl
  | cons c cs ih =>
    have hc : ¬(c = sep) := fun e => h (e ▸ List.mem_cons_self c cs)
    have hcs : sep ∉ cs := fun hm => h (List.mem_cons_of_mem _ hm)
    simp [goSplit, hc, ih hcs]

theorem mk_toList (s : String) : String.mk s.toList = s := by
  cases s
  rfl

theorem deleteParts_of_no_colon (id : String) (h : ':' ∉ id.toList) :
    deleteParts id = [id] := by
  unfold deleteParts
  rw [goSplit_of_not_mem _ _ h]
  simp [mk_toList]

theorem annoStep_fold (rts : List RoleTemplate) (pre : List String) :
    List.foldl annoStep [("required", pre)] rts = [("required", pre ++ requiredNames rts)] := by
  induction rts generalizing pre with
  | nil => simp [requiredNames]
  | cons r rest ih =>
    by_cases hc : (r.projectCreatorDefault && !r.locked) = true
    · have hstep : annoStep [("required", pre)] r = [("required", pre ++ [r.name])] := by
        simp [annoStep, hc, mapAppend]
      simp only [List.foldl_cons, hstep, ih]
      simp [requiredNames, List.filter_cons, hc]
    · have hstep : annoStep [("required", pre)] r = [("required", pre)] := by
        simp [annoStep, hc]
      simp only [List.foldl_cons, hstep, ih]
      simp [requiredNames, List.filter_cons, hc]

theorem buildAnnoMap_eq (rts : List RoleTemplate) :
    buildAnnoMap rts = if requiredNames rts = [] then [] else [("required", requiredNames rts)] := by
  induction rts with
  | nil => simp [buildAnnoMap, requiredNames]
  | cons r rest ih =>
    by_cases hc : (r.projectCreatorDefault && !r.locked) = true
    · have hstep : annoStep [] r = [("required", [r.name])] := by
        simp [annoStep, hc, mapAppend]
      have h2 : requiredNames (r :: rest) = r.name :: requiredNames rest := by
        simp [requiredNames, List.filter_cons, hc]
      simp only [buildAnnoMap, List.foldl_cons, hstep, annoStep_fold, h2]
      simp
    · have hstep : annoStep [] r = [] := by simp [annoStep, hc]
      have h2 : requiredNames (r :: rest) = requiredNames rest := by
        simp [requiredNames, List.filter_cons, hc]
      simp only [buildAnnoMap, List.foldl_cons, hstep, h2]
      exact ih

theorem fieldVal_of_not_present (data : Payload) (k : String)
    (h : fieldPresent data k = false) : fieldVal data k = PVal.null := by
  unfold fieldPresent at h
  revert h
  cases fieldVal data k <;> simp

theorem requiredObjectString_length (names : List String) :
    (requiredObjectString names).length
      = 15 + (joinComma (names.map quoteJSON)).length := by
  simp only [requiredObjectString, quoteJSON, marshalStringList, String.length_append]
  have h1 : ("\x7b" : String).length = 1 := rfl
  have h2 : ("\x7d" : String).length = 1 := rfl
  have h3 : ("\"" : String).length = 1 := rfl
  have h4 : ("required" : String).length = 8 := rfl
  have h5 : (":" : String).length = 1 := rfl
  have h6 : ("[" : String).length = 1 := rfl
  have h7 : ("]" : String).length = 1 := rfl
  omega

/-! ### Claims -/

/-- C1: for every create or update payload in which exactly one of the two
quota fields is present (a present-but-nil value counting as absent),
validation fails with a MissingRequired field error naming the absent
field, and both `Update` and `Create` return that error instead of
invoking the underlying store. -/
theorem c1_quota_pair_missing_required (data : Payload) (id : String) (rts : List RoleTemplate)
    (h : fieldPresent data quotaField ≠ fieldPresent data namespaceQuotaField) :
    validateResourceQuota data id
        = some (PError.api ErrCode.missingRequired
            (some (if fieldPresent data quotaField then namespaceQuotaField else quotaField)) "")
      ∧ Update data id
        = Outcome.err (PError.api ErrCode.missingRequired
            (some (if fieldPresent data quotaField then namespaceQuotaField else quotaField)) "")
      ∧ Create (Except.ok rts) data
        = Outcome.err (PError.api ErrCode.missingRequired
            (some (if fieldPresent data quotaField then namespaceQuotaField else quotaField)) "") := by
  have hv : ∀ j : String, validateResourceQuota data j
      = some (PError.api ErrCode.missingRequired
          (some (if fieldPresent data quotaField then namespaceQuotaField else quotaField)) "") := by
    intro j
    unfold validateResourceQuota
    rw [if_pos h]
    cases hq : fieldPresent data quotaField <;> simp [hq]
  exact ⟨hv id, by simp [Update, hv id], by simp [Create, createProjectAnnotation, hv ""]⟩

/-- Witness for C1 at a payload with a project quota and no namespace
default quota. -/
theorem c1_witness :
    validateResourceQuota [(quotaField, PVal.quota (some []))] "i"
        = some (PError.api ErrCode.missingRequired (some namespaceQuotaField) "")
      ∧ Update [(quotaField, PVal.quota (some []))] "i"
        = Outcome.err (PError.api ErrCode.missingRequired (some namespaceQuotaField) "")
      ∧ Create (Except.ok []) [(quotaField, PVal.quota (some []))]
        = Outcome.err (PError.api ErrCode.missingRequired (some namespaceQuotaField) "") :=
  c1_quota_pair_missing_required [(quotaField, PVal.quota (some []))] "i" [] (by decide)

/-- C2: for every delete whose target project resolves, a system-project
label equal to "true" yields a MethodNotAllowed error with the fixed
message and no delegation, and any other label value delegates the delete
to the underlying store. -/
theorem c2_system_project_delete_blocked (projGet : String → String → Except String Project)
    (id : String) (proj : Project)
    (h : projGet ((deleteParts id).headD "") ((deleteParts id).getLastD "") = Except.ok proj) :
    ((assocGet proj.labels systemProjectLabel).getD "" = "true" →
        Delete projGet id
          = DeleteOutcome.err
              (PError.api ErrCode.methodNotAllowed none "System Project cannot be deleted"))
      ∧ ((assocGet proj.labels systemProjectLabel).getD "" ≠ "true" →
        Delete projGet id = DeleteOutcome.delegated id) := by
  constructor <;> intro hl <;> (simp only [Delete]; rw [h]; simp [hl])

/-- Witness for C2: a resolved system project is rejected, a resolved
ordinary project is delegated. -/
theorem c2_witness :
    Delete (fun _ _ => Except.ok (Project.mk [(systemProjectLabel, "true")])) "c1:p1"
        = DeleteOutcome.err
            (PError.api ErrCode.methodNotAllowed none "System Project cannot be deleted")
      ∧ Delete (fun _ _ => Except.ok (Project.mk [])) "c1:p1" = DeleteOutcome.delegated "c1:p1" :=
  ⟨(c2_system_project_delete_blocked (fun _ _ => Except.ok (Project.mk [(systemProjectLabel, "true")]))
      "c1:p1" (Project.mk [(systemProjectLabel, "true")]) rfl).1 (by decide),
   (c2_system_project_delete_blocked (fun _ _ => Except.ok (Project.mk []))
      "c1:p1" (Project.mk []) rfl).2 (by decide)⟩

/-- C3: whenever at least one role template qualifies, the computed
annotation is the JSON object whose single key "required" lists exactly
the role templates that are project-creator-default and not locked, in
listing order. -/
theorem c3_creator_role_defaults (rts : List RoleTemplate) (h : requiredNames rts ≠ []) :
    createProjectAnnotation (Except.ok rts)
      = Except.ok ( requiredObjectString (requiredNames rts)) := by
  simp only [ createProjectAnnotation]
  rw [buildAnnoMap_eq, if_neg h]
  simp [marshalStrListMap, joinComma, requiredObjectString]

/-- Witness for C3, the spec scenario: owner and editor (default,
unlocked) and legacy (default, locked) produce exactly
`{"required":["owner","editor"]}`. -/
theorem c3_witness :
    createProjectAnnotation (Except.ok
        [RoleTemplate.mk "owner" true false, RoleTemplate.mk "editor" true false,
         RoleTemplate.mk "legacy" true true])
      = Except.ok "\x7b\"required\":[\"owner\",\"editor\"]\x7d" := by
  rw [c3_creator_role_defaults _ (by decide)]
  rfl

/-- C4: for every payload where both quota fields hold quota objects and
the fit checker reports not-fit without error, validation fails with a
MaxLimitExceeded error on the namespace default quota field whose message
lists the violating resource names reported by the checker. -/
theorem c4_limit_exceeded (data : Payload) (id : String)
    (pOpt nsOpt : Option ResourceQuotaLimit) (msg : String)
    (hq : assocGet data quotaField = some (PVal.quota pOpt))
    (hn : assocGet data namespaceQuotaField = some (PVal.quota nsOpt))
    (hfit : isQuotaFit (nsOpt.getD []) [] (pOpt.getD []) = Except.ok (false, msg)) :
    validateResourceQuota data id
      = some (PError.api ErrCode.maxLimitExceeded (some namespaceQuotaField)
          ("exceeds " ++ quotaField ++ " on fields: " ++ msg)) := by
  have hv1 : fieldVal data quotaField = PVal.quota pOpt := by simp [fieldVal, hq]
  have hv2 : fieldVal data namespaceQuotaField = PVal.quota nsOpt := by simp [fieldVal, hn]
  have hp1 : fieldPresent data quotaField = true := by simp [fieldPresent, hv1]
  have hp2 : fieldPresent data namespaceQuotaField = true := by simp [fieldPresent, hv2]
  simp [validateResourceQuota, hv1, hv2, hp1, hp2, convQuota, limitToLimit, hfit]

/-- Witness for C4: a 4Gi namespace default against a 2Gi project quota
fails naming "memory". -/
theorem c4_witness :
    validateResourceQuota
        [(quotaField, PVal.quota (some [("memory", "2Gi")])),
         (namespaceQuotaField, PVal.quota (some [("memory", "4Gi")]))] "u"
      = some (PError.api ErrCode.maxLimitExceeded (some namespaceQuotaField)
          "exceeds resourceQuota on fields: memory") :=
  c4_limit_exceeded
    [(quotaField, PVal.quota (some [("memory", "2Gi")])),
     (namespaceQuotaField, PVal.quota (some [("memory", "4Gi")]))] "u"
    (some [("memory", "2Gi")]) (some [("memory", "4Gi")]) "memory" rfl rfl rfl

/-- C5 counterexample: when no role template is both
project-creator-default and unlocked, the computed value is the empty
JSON object, which is not an object with the single key "required" for
any list of names. -/
theorem c5_counterexample :
    createProjectAnnotation (Except.ok [RoleTemplate.mk "legacy" true true]) = Except.ok "\x7b\x7d"
      ∧ ∀ names : List String, requiredObjectString names ≠ "\x7b\x7d" := by
  refine ⟨rfl, fun names h => ?_⟩
  have hl := congrArg String.length h
  rw [requiredObjectString_length] at hl
  have h2 : ("\x7b\x7d" : String).length = 2 := rfl
  omega

/-- C5 (amended): on every create, the injected value is the JSON object
with the single key "required" listing the qualifying role-template names
when at least one template qualifies, and the empty JSON object (no keys)
when none does. -/
theorem c5_required_object_shape (rts : List RoleTemplate) :
    createProjectAnnotation (Except.ok rts)
      = Except.ok (if requiredNames rts = [] then "\x7b\x7d"
          else requiredObjectString (requiredNames rts)) := by
  simp only [ createProjectAnnotation]
  rw [buildAnnoMap_eq]
  by_cases h : requiredNames rts = []
  · rw [if_pos h, if_pos h]
    rfl
  · rw [if_neg h, if_neg h]
    simp [marshalStrListMap, joinComma, requiredObjectString]

/-- C6: when both quota fields are absent or present-but-nil, quota
validation passes and both update and create delegate the write to the
underlying store. -/
theorem c6_absent_pair_passes (data : Payload) (id : String) (rts : List RoleTemplate)
    (hq : fieldPresent data quotaField = false)
    (hn : fieldPresent data namespaceQuotaField = false) :
    validateResourceQuota data id = none
      ∧ Update data id = Outcome.delegated id data
      ∧ Create (Except.ok rts) data
        = Outcome.delegated "" ( putValue data (marshalStrListMap (buildAnnoMap rts))) := by
  have hv1 := fieldVal_of_not_present data quotaField hq
  have hv2 := fieldVal_of_not_present data namespaceQuotaField hn
  have hv : ∀ j : String, validateResourceQuota data j = none := by
    intro j
    simp [validateResourceQuota, hq, hn, hv1, hv2, convQuota, limitToLimit, isQuotaFit,
      fitViolationsAll, fitViolations, joinComma]
  exact ⟨hv id, by simp [Update, hv id], by simp [Create, createProjectAnnotation, hv ""]⟩

/-- Witness for C6 at the empty payload. -/
theorem c6_witness :
    validateResourceQuota [] "x" = none
      ∧ Update [] "x" = Outcome.delegated "x" []
      ∧ Create (Except.ok []) []
        = Outcome.delegated "" ( putValue [] (marshalStrListMap (buildAnnoMap []))) :=
  c6_absent_pair_passes [] "x" [] (by decide) (by decide)

/-- C7: collaborator errors are propagated unchanged: a fit-checker error
becomes the validation result as-is, a project-lookup error on delete is
returned as-is, and a role-template listing error on create is returned
as-is. -/
theorem c7_collaborator_errors_propagated :
    (∀ (data : Payload) (id : String) (pOpt nsOpt : Option ResourceQuotaLimit) (e : String),
        assocGet data quotaField = some (PVal.quota pOpt) →
        assocGet data namespaceQuotaField = some (PVal.quota nsOpt) →
        isQuotaFit (nsOpt.getD []) [] (pOpt.getD []) = Except.error e →
        validateResourceQuota data id = some (PError.ext e))
      ∧ (∀ (projGet : String → String → Except String Project) (id : String) (e : String),
        projGet ((deleteParts id).headD "") ((deleteParts id).getLastD "") = Except.error e →
        Delete projGet id = DeleteOutcome.err (PError.ext e))
      ∧ (∀ (data : Payload) (e : String),
        Create (Except.error e) data = Outcome.err (PError.ext e)) := by
  refine ⟨?_, ?_, fun data e => rfl⟩
  · intro data id pOpt nsOpt e hq hn hfit
    have hv1 : fieldVal data quotaField = PVal.quota pOpt := by simp [fieldVal, hq]
    have hv2 : fieldVal data namespaceQuotaField = PVal.quota nsOpt := by simp [fieldVal, hn]
    have hp1 : fieldPresent data quotaField = true := by simp [fieldPresent, hv1]
    have hp2 : fieldPresent data namespaceQuotaField = true := by simp [fieldPresent, hv2]
    simp [validateResourceQuota, hv1, hv2, hp1, hp2, convQuota, limitToLimit, hfit]
  · intro projGet id e h
    simp only [Delete]
    rw [h]

/-- Witness for C7: a malformed quantity error, a failed project lookup,
and a failed role-template listing each surface unchanged. -/
theorem c7_witness :
    validateResourceQuota
        [(quotaField, PVal.quota (some [("cpu", "1")])),
         (namespaceQuotaField, PVal.quota (some [("cpu", "abc")]))] "u"
      = some (PError.ext "unable to parse quantity abc")
    ∧ Delete (fun _ _ => Except.error "project not found") "c1:p1"
      = DeleteOutcome.err (PError.ext "project not found")
    ∧ Create (Except.error "role template list failed") []
      = Outcome.err (PError.ext "role template list failed") :=
  ⟨c7_collaborator_errors_propagated.1
      [(quotaField, PVal.quota (some [("cpu", "1")])),
       (namespaceQuotaField, PVal.quota (some [("cpu", "abc")]))] "u"
      (some [("cpu", "1")]) (some [("cpu", "abc")]) "unable to parse quantity abc" rfl rfl rfl,
   c7_collaborator_errors_propagated.2.1 (fun _ _ => Except.error "project not found") "c1:p1"
      "project not found" rfl,
   c7_collaborator_errors_propagated.2.2 [] "role template list failed"⟩

/-- C8: delete resolves the project from the first and last ":"-separated
segments of the id (so its outcome depends on the lookup only at those
two segments), and an id without ":" uses the whole id for both. -/
theorem c8_delete_id_split :
    (∀ (f g : String → String → Except String Project) (id : String),
        f ((deleteParts id).headD "") ((deleteParts id).getLastD "")
          = g ((deleteParts id).headD "") ((deleteParts id).getLastD "") →
        Delete f id = Delete g id)
      ∧ (∀ id : String, ':' ∉ id.toList → deleteParts id = [id]) := by
  constructor
  · intro f g id h
    simp only [Delete]
    rw [h]
  · exact deleteParts_of_no_colon

/-- Witness for C8: two lookups agreeing on ("a", "b") give the same
outcome for id "a:b", and an id without a colon splits to itself. -/
theorem c8_witness :
    Delete (fun c _ => if c = "a" then Except.ok (Project.mk []) else Except.error "x") "a:b"
        = Delete (fun _ _ => Except.ok (Project.mk [])) "a:b"
      ∧ deleteParts "p1" = ["p1"] :=
  ⟨c8_delete_id_split.1
      (fun c _ => if c = "a" then Except.ok (Project.mk []) else Except.error "x")
      (fun _ _ => Except.ok (Project.mk [])) "a:b" rfl,
   c8_delete_id_split.2 "p1" (by decide)⟩

/-- C9: the quota-fit validation result does not depend on the id
argument. -/
theorem c9_validate_ignores_id (data : Payload) (id1 id2 : String) :
    validateResourceQuota data id1 = validateResourceQuota data id2 := rfl

/-- C10: create is atomic on failure: a role-template listing error is
returned as-is with no delegation, a validation error is returned as-is
with no delegation, and delegation (with the annotation injected) happens
only when validation succeeded. -/
theorem c10_create_fails_atomically :
    (∀ (data : Payload) (e : String), Create (Except.error e) data = Outcome.err (PError.ext e))
      ∧ (∀ (data : Payload) (rts : List RoleTemplate) (e : PError),
          validateResourceQuota data "" = some e → Create (Except.ok rts) data = Outcome.err e)
      ∧ (∀ (data : Payload) (rtRes : Except String (List RoleTemplate)) (cid : String) (d : Payload),
          Create rtRes data = Outcome.delegated cid d → validateResourceQuota data "" = none) := by
  refine ⟨fun data e => rfl, ?_, ?_⟩
  · intro data rts e hv
    simp [Create, createProjectAnnotation, hv]
  · intro data rtRes cid d h
    cases rtRes with
    | error e => simp [Create, createProjectAnnotation] at h
    | ok rts =>
      cases hv : validateResourceQuota data "" with
      | none => rfl
      | some e => simp [Create, createProjectAnnotation, hv] at h

/-- Witness for C10: a listing failure and a validation failure each stop
the create, and a delegated create implies validation passed. -/
theorem c10_witness :
    Create (Except.error "boom") [] = Outcome.err (PError.ext "boom")
      ∧ Create (Except.ok []) [(quotaField, PVal.quota (some []))]
        = Outcome.err (PError.api ErrCode.missingRequired (some namespaceQuotaField) "")
      ∧ validateResourceQuota [] "" = none :=
  ⟨c10_create_fails_atomically.1 [] "boom",
   c10_create_fails_atomically.2.1 [(quotaField, PVal.quota (some []))] []
      (PError.api ErrCode.missingRequired (some namespaceQuotaField) "") rfl,
   c10_create_fails_atomically.2.2 [] (Except.ok []) ""
      [("annotations", PVal.strMap [(roleTemplatesRequired, "\x7b\x7d")])] rfl⟩

end ProjectStore
